import Mathlib

/-!
# User service of `pkg/user`

A shallow embedding of the domain service of `pkg/user/service.go` over the
repository interface of `pkg/user/repository.go`.

* Go's `(User, error)` results are pairs `User × Option String`: the error is
  `none` for `nil` and `some msg` for an error value with message `msg`
  (`errors.New msg`, `fmt.Errorf`).
* The repository is the interface `UserData`; its backing store is an explicit
  state of type `σ` threaded through every call.
* Every call the service makes on the repository is appended to a call log, so
  that "makes no `Persist` call" is a statement about the log.
* The logger calls of the source produce no value the code consumes and are
  left out.
* Go's `len(s)` counts bytes and `String.length` counts characters; the code
  only tests `len(s)` against zero, and both are zero exactly for `""`.
-/

namespace user

/-- The record of `model.go`. -/
structure User where
  Email : String
  FirstName : String
  LastName : String
deriving DecidableEq, Repr

/-- The zero value `User{}` of Go. -/
def User.zero : User := ⟨"", "", ""⟩

/-- The interface `UserData` of `repository.go`, over a store of type `σ`. -/
structure UserData (σ : Type) where
  FetchAll : σ → (List User × Option String) × σ
  FetchOne : String → σ → (User × Option String) × σ
  Persist : User → σ → Option String × σ
  Delete : String → σ → Option String × σ

/-- A call made on the repository. -/
inductive RepoCall where
  | FetchAll : RepoCall
  | FetchOne (key : String) : RepoCall
  | Persist (user : User) : RepoCall
  | Delete (key : String) : RepoCall
deriving DecidableEq, Repr

/-- The records handed to `Persist` in a call log. -/
def persistCalls : List RepoCall → List User
  | [] => []
  | RepoCall.Persist u :: cs => u :: persistCalls cs
  | _ :: cs => persistCalls cs

/-- The keys handed to `Delete` in a call log. -/
def deleteCalls : List RepoCall → List String
  | [] => []
  | RepoCall.Delete k :: cs => k :: deleteCalls cs
  | _ :: cs => deleteCalls cs

/-- The backing store together with the log of repository calls. -/
structure World (σ : Type) where
  store : σ
  calls : List RepoCall
deriving DecidableEq

def errorInvalidUserData : String := "invalid user data"
def errorInvalidEmail : String := "invalid email"
def errorUserAlreadyExists : String := "user already exists"
def errorUserDoesNotExists : String := "user does not exist"
def errorUnableToCreateUser : String := "unable to create user"
def errorUnableToDeleteUser : String := "unable to delete user"

/-- The struct `userService`: the repository it holds, and the email check
`utils.IsEmailValid` it calls. Package `utils` is not among the sources, so the
check is a field of the service and the theorems hold for every such check. -/
structure userService (σ : Type) where
  repo : UserData σ
  IsEmailValid : String → Bool

variable {σ : Type}

/-- `userService.FetchAll` (service.go 43-54). -/
def userService.FetchAll (svc : userService σ) (w : World σ) :
    (List User × Option String) × World σ :=
  let r := svc.repo.FetchAll w.store
  let w1 : World σ := ⟨r.2, w.calls ++ [RepoCall.FetchAll]⟩
  match r.1.2 with
  | some _ => (([], some "Couldn't get the users list"), w1)
  | none => ((r.1.1, none), w1)

/-- `userService.FetchOne` (service.go 56-72). -/
def userService.FetchOne (svc : userService σ) (email : String) (w : World σ) :
    (User × Option String) × World σ :=
  if !svc.IsEmailValid email then
    ((User.zero, some ("Couldn't find user with email " ++ email)), w)
  else
    let r := svc.repo.FetchOne email w.store
    let w1 : World σ := ⟨r.2, w.calls ++ [RepoCall.FetchOne email]⟩
    match r.1.2 with
    | some _ => ((User.zero, some ("Couldn't find user with email " ++ email)), w1)
    | none => ((r.1.1, none), w1)

/-- `userService.Create` (service.go 74-92). The error of the probe is dropped. -/
def userService.Create (svc : userService σ) (user : User) (w : World σ) :
    (User × Option String) × World σ :=
  let p := svc.FetchOne user.Email w
  let existent := p.1.1
  if existent.Email.length ≠ 0 then
    ((User.zero, some errorUserAlreadyExists), p.2)
  else
    let r := svc.repo.Persist user p.2.store
    let w2 : World σ := ⟨r.2, p.2.calls ++ [RepoCall.Persist user]⟩
    match r.1 with
    | some _ => ((User.zero, some errorUnableToCreateUser), w2)
    | none => ((user, none), w2)

/-- The two field assignments of `userService.Update` (service.go 105-111). -/
def mergeFields (user existent : User) : User :=
  let existent : User :=
    if user.FirstName.length ≠ 0 ∧ user.FirstName ≠ existent.FirstName then
      ⟨existent.Email, user.FirstName, existent.LastName⟩
    else existent
  let existent : User :=
    if user.LastName.length ≠ 0 ∧ user.LastName ≠ existent.LastName then
      ⟨existent.Email, existent.FirstName, user.LastName⟩
    else existent
  existent

/-- `userService.Update` (service.go 94-120). The error of `Persist` is
returned as it is. -/
def userService.Update (svc : userService σ) (user : User) (w : World σ) :
    (User × Option String) × World σ :=
  let p := svc.FetchOne user.Email w
  let existent := p.1.1
  if existent.Email.length = 0 then
    ((User.zero, some errorUserDoesNotExists), p.2)
  else
    let existent := mergeFields user existent
    let r := svc.repo.Persist existent p.2.store
    let w2 : World σ := ⟨r.2, p.2.calls ++ [RepoCall.Persist existent]⟩
    match r.1 with
    | some err => ((User.zero, some err), w2)
    | none => ((existent, none), w2)

/-- `userService.Delete` (service.go 122-140). -/
def userService.Delete (svc : userService σ) (email : String) (w : World σ) :
    (User × Option String) × World σ :=
  let p := svc.FetchOne email w
  let existent := p.1.1
  if existent.Email.length = 0 then
    ((User.zero, some errorUserDoesNotExists), p.2)
  else
    let r := svc.repo.Delete email p.2.store
    let w2 : World σ := ⟨r.2, p.2.calls ++ [RepoCall.Delete email]⟩
    match r.1 with
    | some _ => ((User.zero, some errorUnableToDeleteUser), w2)
    | none => ((existent, none), w2)

/-- Modelled from the spec: `utils.IsEmailValid`, whose package is not among
the sources. The email is non-empty and has the shape `local@domain` with at
least one `.` in the domain; a string without an `@`, without a domain or
without a `.` in the domain is rejected. -/
def IsEmailValid (email : String) : Bool :=
  let localPart := email.data.takeWhile (fun c => c != '@')
  match email.data.dropWhile (fun c => c != '@') with
  | [] => false
  | _ :: domain => !localPart.isEmpty && !domain.isEmpty && domain.contains '.'

/-- An in-memory repository over a list of records, keyed by email: `FetchOne`
returns the stored record or the zero `User`, `Persist` upserts, `Delete`
removes, and no call fails. It stands for the backing store in the concrete
evaluations; the repository of `repository.go` talks to DynamoDB and is not
embedded, the service sees it through `UserData` only. -/
def memRepo : UserData (List User) where
  FetchAll := fun s => ((s, none), s)
  FetchOne := fun k s => (((s.find? (fun r => r.Email == k)).getD User.zero, none), s)
  Persist := fun u s => (none, u :: s.filter (fun r => r.Email != u.Email))
  Delete := fun k s => (none, s.filter (fun r => r.Email != k))

/-- The records of an in-memory store, seen as a map from keys to records. -/
def memView (s : List User) (k : String) : Option User :=
  s.find? (fun r => r.Email == k)

/-- The service over the in-memory repository, with the modelled email check. -/
def memService : userService (List User) := ⟨memRepo, IsEmailValid⟩

/-- The merged record in the words of the merge rule: the email of the existing
record, and for each name the incoming value when it is non-empty, else the
existing one. -/
def specMerge (u e : User) : User :=
  ⟨e.Email,
   if u.FirstName ≠ "" then u.FirstName else e.FirstName,
   if u.LastName ≠ "" then u.LastName else e.LastName⟩

/-- A repository that behaves as a faithful key-value map keyed by email, seen
through `view`: `FetchOne` returns the stored record or the zero `User` and
leaves the store alone, `Persist` upserts under the email of the record,
`Delete` removes the key, and no call fails. -/
structure Faithful (repo : UserData σ) (view : σ → String → Option User) : Prop where
  fetchOne : ∀ k s, repo.FetchOne k s = (((view s k).getD User.zero, none), s)
  persist_ok : ∀ u s, (repo.Persist u s).1 = none
  persist_view : ∀ u s k,
    view (repo.Persist u s).2 k = if k = u.Email then some u else view s k
  delete_ok : ∀ k s, (repo.Delete k s).1 = none
  delete_view : ∀ k s j, view (repo.Delete k s).2 j = if j = k then none else view s j
  keyed : ∀ s k r, view s k = some r → r.Email = k

/-- Two repositories that behave identically except for the content of the
error values they return: same records, same store, and an error from the
one exactly when there is an error from the other. -/
structure SameUpToErrorContent (r1 r2 : UserData σ) : Prop where
  fetchAll : ∀ s, (r1.FetchAll s).1.1 = (r2.FetchAll s).1.1 ∧
    ((r1.FetchAll s).1.2 = none ↔ (r2.FetchAll s).1.2 = none) ∧
    (r1.FetchAll s).2 = (r2.FetchAll s).2
  fetchOne : ∀ k s, (r1.FetchOne k s).1.1 = (r2.FetchOne k s).1.1 ∧
    ((r1.FetchOne k s).1.2 = none ↔ (r2.FetchOne k s).1.2 = none) ∧
    (r1.FetchOne k s).2 = (r2.FetchOne k s).2
  persist : ∀ u s, ((r1.Persist u s).1 = none ↔ (r2.Persist u s).1 = none) ∧
    (r1.Persist u s).2 = (r2.Persist u s).2
  delete : ∀ k s, ((r1.Delete k s).1 = none ↔ (r2.Delete k s).1 = none) ∧
    (r1.Delete k s).2 = (r2.Delete k s).2

def errorFailedToUnmarshalRecord : String := "failed to unmarshal record"
def errorFailedToFetchRecord : String := "failed to fetch record"
def errorCouldNotMarshalItem : String := "could not marshal item"
def errorCouldNotDeleteItem : String := "could not delete item"
def errorCouldNotDynamoPutItem : String := "could not dynamo put item error"

/-- The in-memory repository with a backend whose lookups fail: `FetchOne`
returns the error of `userRepo.FetchOne` (repository.go 86-89). -/
def lookupDownRepo : UserData (List User) where
  FetchAll := memRepo.FetchAll
  FetchOne := fun _ s => ((User.zero, some errorFailedToFetchRecord), s)
  Persist := memRepo.Persist
  Delete := memRepo.Delete

/-- The in-memory repository with a backend whose writes fail: `Persist`
returns an error with message `msg` and leaves the store alone. -/
def writeDownRepo (msg : String) : UserData (List User) where
  FetchAll := memRepo.FetchAll
  FetchOne := memRepo.FetchOne
  Persist := fun _ s => (some msg, s)
  Delete := memRepo.Delete

/-! ## Basic facts -/

theorem length_eq_zero_iff (s : String) : s.length = 0 ↔ s = "" := by
  cases s with
  | mk data =>
    cases data with
    | nil => simp [String.length]
    | cons c cs =>
      simp only [String.length, List.length_cons, Nat.succ_ne_zero, false_iff]
      intro h
      have := congrArg String.data h
      simp at this

theorem persistCalls_append (xs ys : List RepoCall) :
    persistCalls (xs ++ ys) = persistCalls xs ++ persistCalls ys := by
  induction xs with
  | nil => rfl
  | cons c cs ih => cases c <;> simp [persistCalls, ih]

theorem deleteCalls_append (xs ys : List RepoCall) :
    deleteCalls (xs ++ ys) = deleteCalls xs ++ deleteCalls ys := by
  induction xs with
  | nil => rfl
  | cons c cs ih => cases c <;> simp [deleteCalls, ih]

theorem mergeFields_eq_specMerge (u e : User) : mergeFields u e = specMerge u e := by
  cases u with
  | mk ue uf ul =>
    cases e with
    | mk ee ef el =>
      by_cases h1 : uf = "" <;> by_cases h2 : ul = "" <;>
        by_cases h3 : uf = ef <;> by_cases h4 : ul = el <;>
        simp_all [mergeFields, specMerge, length_eq_zero_iff]

theorem FetchOne_of_invalid (svc : userService σ) (email : String) (w : World σ)
    (h : svc.IsEmailValid email = false) :
    svc.FetchOne email w = ((User.zero, some ("Couldn't find user with email " ++ email)), w) := by
  simp [userService.FetchOne, h]

theorem FetchOne_of_valid (svc : userService σ) (email : String) (w : World σ)
    (h : svc.IsEmailValid email = true) :
    svc.FetchOne email w =
      (match (svc.repo.FetchOne email w.store).1.2 with
        | some _ => (User.zero, some ("Couldn't find user with email " ++ email))
        | none => ((svc.repo.FetchOne email w.store).1.1, none),
       ⟨(svc.repo.FetchOne email w.store).2, w.calls ++ [RepoCall.FetchOne email]⟩) := by
  simp only [userService.FetchOne, h]
  cases (svc.repo.FetchOne email w.store).1.2 <;> rfl

theorem FetchOne_persistCalls (svc : userService σ) (email : String) (w : World σ) :
    persistCalls (svc.FetchOne email w).2.calls = persistCalls w.calls := by
  cases h : svc.IsEmailValid email
  · rw [FetchOne_of_invalid svc email w h]
  · rw [FetchOne_of_valid svc email w h]
    simp [persistCalls_append, persistCalls]

theorem FetchOne_deleteCalls (svc : userService σ) (email : String) (w : World σ) :
    deleteCalls (svc.FetchOne email w).2.calls = deleteCalls w.calls := by
  cases h : svc.IsEmailValid email
  · rw [FetchOne_of_invalid svc email w h]
  · rw [FetchOne_of_valid svc email w h]
    simp [deleteCalls_append, deleteCalls]

/-! ## Lookup -/

/-- C7. For every email the email check rejects, `FetchOne` returns the zero
`User` and a non-nil error, and makes no call on the repository: the store and
the call log are the ones it started from. -/
theorem FetchOne_invalid_email_no_repository_call (svc : userService σ) (email : String)
    (w : World σ) (h : svc.IsEmailValid email = false) :
    (svc.FetchOne email w).1.1 = User.zero ∧
    (svc.FetchOne email w).1.2 ≠ none ∧
    (svc.FetchOne email w).2.calls = w.calls ∧
    (svc.FetchOne email w).2.store = w.store := by
  rw [FetchOne_of_invalid svc email w h]
  simp

/-- Witness of C7 at the emails `not-an-email` and the empty string, which the
modelled email check rejects. -/
theorem FetchOne_invalid_email_no_repository_call_witness :
    (memService.IsEmailValid "not-an-email" = false ∧
      (memService.FetchOne "not-an-email" ⟨[⟨"a@b.com", "A", "B"⟩], []⟩).1.1 = User.zero ∧
      (memService.FetchOne "not-an-email" ⟨[⟨"a@b.com", "A", "B"⟩], []⟩).1.2 ≠ none ∧
      (memService.FetchOne "not-an-email" ⟨[⟨"a@b.com", "A", "B"⟩], []⟩).2.calls = [] ∧
      (memService.FetchOne "not-an-email" ⟨[⟨"a@b.com", "A", "B"⟩], []⟩).2.store
        = [⟨"a@b.com", "A", "B"⟩]) ∧
    (memService.IsEmailValid "" = false ∧
      (memService.FetchOne "" ⟨[], []⟩).1.1 = User.zero ∧
      (memService.FetchOne "" ⟨[], []⟩).1.2 ≠ none ∧
      (memService.FetchOne "" ⟨[], []⟩).2.calls = [] ∧
      (memService.FetchOne "" ⟨[], []⟩).2.store = []) :=
  ⟨⟨by decide, FetchOne_invalid_email_no_repository_call memService "not-an-email"
      ⟨[⟨"a@b.com", "A", "B"⟩], []⟩ (by decide)⟩,
   ⟨by decide, FetchOne_invalid_email_no_repository_call memService "" ⟨[], []⟩ (by decide)⟩⟩

/-- C2 as stated fails: over the empty in-memory store the repository returns
the zero `User` and a nil error for the well-formed email `a@b.com`, and
`FetchOne` returns success (a nil error), not the error it gives on a lookup
failure. -/
theorem FetchOne_absent_is_not_an_error :
    memService.IsEmailValid "a@b.com" = true ∧
    memService.repo.FetchOne "a@b.com" [] = ((User.zero, none), []) ∧
    (memService.FetchOne "a@b.com" ⟨[], []⟩).1 = (User.zero, none) ∧
    (memService.FetchOne "a@b.com" ⟨[], []⟩).1.2
      ≠ some ("Couldn't find user with email " ++ "a@b.com") := by
  decide

/-- C2, amended. For every email the check accepts and for which the repository
returns the zero `User` with a nil error, `FetchOne` calls the repository once
and returns the zero `User` with a nil error. -/
theorem FetchOne_absent_returns_zero_user (svc : userService σ) (email : String)
    (w : World σ) (s1 : σ) (hvalid : svc.IsEmailValid email = true)
    (habsent : svc.repo.FetchOne email w.store = ((User.zero, none), s1)) :
    svc.FetchOne email w = ((User.zero, none), ⟨s1, w.calls ++ [RepoCall.FetchOne email]⟩) := by
  rw [FetchOne_of_valid svc email w hvalid, habsent]

/-- Witness of the amended C2 over the empty in-memory store. -/
theorem FetchOne_absent_returns_zero_user_witness :
    memService.IsEmailValid "a@b.com" = true ∧
    memService.repo.FetchOne "a@b.com" [] = ((User.zero, none), []) ∧
    memService.FetchOne "a@b.com" ⟨[], []⟩
      = ((User.zero, none), ⟨[], [] ++ [RepoCall.FetchOne "a@b.com"]⟩) :=
  ⟨by decide, by decide,
   FetchOne_absent_returns_zero_user memService "a@b.com" ⟨[], []⟩ [] (by decide) (by decide)⟩

/-! ## Update and Delete of an absent record -/

/-- C5. When the existence probe `FetchOne` yields a `User` with empty email,
`Update` fails with "user does not exist", returns the zero `User` and makes
no `Persist` call, and `Delete` fails with "user does not exist", returns the
zero `User` and makes no `Delete` call; the store is the one the probe left. -/
theorem absent_record_mutation_rejected (svc : userService σ) (user : User) (w : World σ)
    (h : (svc.FetchOne user.Email w).1.1.Email = "") :
    (svc.Update user w).1 = (User.zero, some "user does not exist") ∧
    (svc.Update user w).2 = (svc.FetchOne user.Email w).2 ∧
    persistCalls (svc.Update user w).2.calls = persistCalls w.calls ∧
    (svc.Delete user.Email w).1 = (User.zero, some "user does not exist") ∧
    (svc.Delete user.Email w).2 = (svc.FetchOne user.Email w).2 ∧
    deleteCalls (svc.Delete user.Email w).2.calls = deleteCalls w.calls := by
  have hlen : (svc.FetchOne user.Email w).1.1.Email.length = 0 :=
    (length_eq_zero_iff _).2 h
  have hU : svc.Update user w
      = ((User.zero, some errorUserDoesNotExists), (svc.FetchOne user.Email w).2) := by
    simp only [userService.Update, hlen, if_true]
  have hD : svc.Delete user.Email w
      = ((User.zero, some errorUserDoesNotExists), (svc.FetchOne user.Email w).2) := by
    simp only [userService.Delete, hlen, if_true]
  rw [hU, hD]
  exact ⟨rfl, rfl, FetchOne_persistCalls svc _ w, rfl, rfl, FetchOne_deleteCalls svc _ w⟩

/-- Witness of C5 at the three ways the probe comes back empty: the email
`nope@x.com` over a store without it, the email `not-an-email` the check
rejects, and the stored email `a@b.com` over a backend whose lookups fail. -/
theorem absent_record_mutation_rejected_witness :
    ((memService.FetchOne "nope@x.com" ⟨[⟨"a@b.com", "A", "B"⟩], []⟩).1.1.Email = "" ∧
      (memService.Update ⟨"nope@x.com", "X", ""⟩ ⟨[⟨"a@b.com", "A", "B"⟩], []⟩).1
        = (User.zero, some "user does not exist") ∧
      (memService.Update ⟨"nope@x.com", "X", ""⟩ ⟨[⟨"a@b.com", "A", "B"⟩], []⟩).2.store
        = [⟨"a@b.com", "A", "B"⟩]) ∧
    ((memService.FetchOne "not-an-email" ⟨[⟨"a@b.com", "A", "B"⟩], []⟩).1.1.Email = "" ∧
      (memService.Delete "not-an-email" ⟨[⟨"a@b.com", "A", "B"⟩], []⟩).1
        = (User.zero, some "user does not exist") ∧
      (memService.Delete "not-an-email" ⟨[⟨"a@b.com", "A", "B"⟩], []⟩).2.calls = []) ∧
    ((userService.FetchOne ⟨lookupDownRepo, IsEmailValid⟩ "a@b.com"
        ⟨[⟨"a@b.com", "A", "B"⟩], []⟩).1.1.Email = "" ∧
      (userService.Delete ⟨lookupDownRepo, IsEmailValid⟩ "a@b.com"
        ⟨[⟨"a@b.com", "A", "B"⟩], []⟩).1 = (User.zero, some "user does not exist") ∧
      deleteCalls (userService.Delete ⟨lookupDownRepo, IsEmailValid⟩ "a@b.com"
        ⟨[⟨"a@b.com", "A", "B"⟩], []⟩).2.calls = deleteCalls []) :=
  ⟨⟨by decide,
    (absent_record_mutation_rejected memService ⟨"nope@x.com", "X", ""⟩
      ⟨[⟨"a@b.com", "A", "B"⟩], []⟩ (by decide)).1, by decide⟩,
   ⟨by decide,
    (absent_record_mutation_rejected memService ⟨"not-an-email", "X", ""⟩
      ⟨[⟨"a@b.com", "A", "B"⟩], []⟩ (by decide)).2.2.2.1, by decide⟩,
   ⟨by decide,
    (absent_record_mutation_rejected ⟨lookupDownRepo, IsEmailValid⟩ ⟨"a@b.com", "X", ""⟩
      ⟨[⟨"a@b.com", "A", "B"⟩], []⟩ (by decide)).2.2.2.1,
    (absent_record_mutation_rejected ⟨lookupDownRepo, IsEmailValid⟩ ⟨"a@b.com", "X", ""⟩
      ⟨[⟨"a@b.com", "A", "B"⟩], []⟩ (by decide)).2.2.2.2.2⟩⟩

/-! ## Update of an existing record -/

/-- C1. When the existence probe returns a record `e` with non-empty email and
`Persist` of the merged record succeeds, `Update u` hands to `Persist` and
returns the record with the email of `e` and, for each name, the value of `u`
when it is non-empty and the value of `e` otherwise. -/
theorem Update_merge_rule (svc : userService σ) (u e : User) (w : World σ)
    (hprobe : (svc.FetchOne u.Email w).1.1 = e) (hne : e.Email ≠ "")
    (hpersist : (svc.repo.Persist (specMerge u e) (svc.FetchOne u.Email w).2.store).1 = none) :
    (svc.Update u w).1 = (specMerge u e, none) ∧
    (svc.Update u w).2.calls
      = (svc.FetchOne u.Email w).2.calls ++ [RepoCall.Persist (specMerge u e)] ∧
    (svc.Update u w).2.store
      = (svc.repo.Persist (specMerge u e) (svc.FetchOne u.Email w).2.store).2 ∧
    (specMerge u e).Email = e.Email ∧
    (specMerge u e).FirstName = (if u.FirstName ≠ "" then u.FirstName else e.FirstName) ∧
    (specMerge u e).LastName = (if u.LastName ≠ "" then u.LastName else e.LastName) := by
  have hlen : ¬ e.Email.length = 0 := by
    rw [length_eq_zero_iff]; exact hne
  have hU : svc.Update u w
      = ((specMerge u e, none),
         ⟨(svc.repo.Persist (specMerge u e) (svc.FetchOne u.Email w).2.store).2,
          (svc.FetchOne u.Email w).2.calls ++ [RepoCall.Persist (specMerge u e)]⟩) := by
    simp only [userService.Update, hprobe, hlen, if_false, mergeFields_eq_specMerge, hpersist]
  rw [hU]
  exact ⟨rfl, rfl, rfl, rfl, rfl, rfl⟩

/-- Witness of C1: the stored record `a@b.com, A, B` and the update
`a@b.com, C, ""` give `a@b.com, C, B`. -/
theorem Update_merge_rule_witness :
    specMerge ⟨"a@b.com", "C", ""⟩ ⟨"a@b.com", "A", "B"⟩ = ⟨"a@b.com", "C", "B"⟩ ∧
    (memService.Update ⟨"a@b.com", "C", ""⟩ ⟨[⟨"a@b.com", "A", "B"⟩], []⟩).1
      = (⟨"a@b.com", "C", "B"⟩, none) ∧
    (memService.Update ⟨"a@b.com", "C", ""⟩ ⟨[⟨"a@b.com", "A", "B"⟩], []⟩).2.store
      = [⟨"a@b.com", "C", "B"⟩] ∧
    (memService.Update ⟨"a@b.com", "C", ""⟩ ⟨[⟨"a@b.com", "A", "B"⟩], []⟩).1
      = (specMerge ⟨"a@b.com", "C", ""⟩ ⟨"a@b.com", "A", "B"⟩, none) :=
  ⟨by decide, by decide, by decide,
   (Update_merge_rule memService ⟨"a@b.com", "C", ""⟩ ⟨"a@b.com", "A", "B"⟩
      ⟨[⟨"a@b.com", "A", "B"⟩], []⟩ (by decide) (by decide) (by decide)).1⟩

/-! ## The in-memory repository is a faithful key-value map -/

theorem find_filter_other (s : List User) (j k : String) (h : k ≠ j) :
    (s.filter (fun r => r.Email != j)).find? (fun r => r.Email == k)
      = s.find? (fun r => r.Email == k) := by
  induction s with
  | nil => rfl
  | cons a t ih =>
    by_cases ha : a.Email = j
    · have hk : ¬ a.Email = k := fun e => h (e.symm.trans ha)
      have e1 : List.filter (fun r : User => r.Email != j) (a :: t)
          = List.filter (fun r : User => r.Email != j) t := by
        simp [List.filter_cons, ha]
      have e2 : List.find? (fun r : User => r.Email == k) (a :: t)
          = List.find? (fun r : User => r.Email == k) t := by
        simp [List.find?_cons, hk]
      rw [e1, e2, ih]
    · have e1 : List.filter (fun r : User => r.Email != j) (a :: t)
          = a :: List.filter (fun r : User => r.Email != j) t := by
        simp [List.filter_cons, ha]
      rw [e1]
      by_cases hk : a.Email = k
      · simp [List.find?_cons, hk]
      · have h2 : (a.Email == k) = false := by simp [hk]
        simp only [List.find?_cons, h2]
        exact ih

theorem find_filter_same (s : List User) (k : String) :
    (s.filter (fun r => r.Email != k)).find? (fun r => r.Email == k) = none := by
  simp [List.find?_eq_none, List.mem_filter]

theorem memRepo_faithful : Faithful memRepo memView where
  fetchOne := fun _ _ => rfl
  persist_ok := fun _ _ => rfl
  persist_view := by
    intro u s k
    by_cases h : k = u.Email
    · subst h; simp [memRepo, memView]
    · have h2 : ¬ u.Email = k := fun e => h e.symm
      simp [memRepo, memView, List.find?_cons, h, h2, find_filter_other s u.Email k h]
  delete_ok := fun _ _ => rfl
  delete_view := by
    intro k s j
    by_cases h : j = k
    · subst h; simp [memRepo, memView, find_filter_same]
    · simp [memRepo, memView, h, find_filter_other s k j h]
  keyed := by
    intro s k r h
    have := List.find?_some h
    simpa using this

/-! ## The operations after the existence probe -/

theorem FetchOne_faithful (svc : userService σ) (view : σ → String → Option User)
    (F : Faithful svc.repo view) (k : String) (w : World σ)
    (hvalid : svc.IsEmailValid k = true) :
    svc.FetchOne k w
      = (((view w.store k).getD User.zero, none),
         ⟨w.store, w.calls ++ [RepoCall.FetchOne k]⟩) := by
  rw [FetchOne_of_valid svc k w hvalid, F.fetchOne]

theorem Create_of_absent (svc : userService σ) (u : User) (w : World σ)
    (h : (svc.FetchOne u.Email w).1.1.Email = "") :
    svc.Create u w =
      (match (svc.repo.Persist u (svc.FetchOne u.Email w).2.store).1 with
        | some _ => (User.zero, some errorUnableToCreateUser)
        | none => (u, none),
       ⟨(svc.repo.Persist u (svc.FetchOne u.Email w).2.store).2,
        (svc.FetchOne u.Email w).2.calls ++ [RepoCall.Persist u]⟩) := by
  have hlen : (svc.FetchOne u.Email w).1.1.Email.length = 0 := (length_eq_zero_iff _).2 h
  simp only [userService.Create, hlen, ne_eq, not_true_eq_false, if_false]
  cases (svc.repo.Persist u (svc.FetchOne u.Email w).2.store).1 <;> rfl

theorem Create_of_present (svc : userService σ) (u : User) (w : World σ)
    (h : (svc.FetchOne u.Email w).1.1.Email ≠ "") :
    svc.Create u w = ((User.zero, some errorUserAlreadyExists), (svc.FetchOne u.Email w).2) := by
  have hlen : ¬ (svc.FetchOne u.Email w).1.1.Email.length = 0 :=
    fun e => h ((length_eq_zero_iff _).1 e)
  simp only [userService.Create, hlen, ne_eq, not_false_eq_true, if_true]

theorem Update_of_absent (svc : userService σ) (u : User) (w : World σ)
    (h : (svc.FetchOne u.Email w).1.1.Email = "") :
    svc.Update u w = ((User.zero, some errorUserDoesNotExists), (svc.FetchOne u.Email w).2) := by
  have hlen : (svc.FetchOne u.Email w).1.1.Email.length = 0 := (length_eq_zero_iff _).2 h
  simp only [userService.Update, hlen, if_true]

theorem Update_of_present (svc : userService σ) (u : User) (w : World σ)
    (h : (svc.FetchOne u.Email w).1.1.Email ≠ "") :
    svc.Update u w =
      (match (svc.repo.Persist (mergeFields u (svc.FetchOne u.Email w).1.1)
          (svc.FetchOne u.Email w).2.store).1 with
        | some err => (User.zero, some err)
        | none => (mergeFields u (svc.FetchOne u.Email w).1.1, none),
       ⟨(svc.repo.Persist (mergeFields u (svc.FetchOne u.Email w).1.1)
          (svc.FetchOne u.Email w).2.store).2,
        (svc.FetchOne u.Email w).2.calls
          ++ [RepoCall.Persist (mergeFields u (svc.FetchOne u.Email w).1.1)]⟩) := by
  have hlen : ¬ (svc.FetchOne u.Email w).1.1.Email.length = 0 :=
    fun e => h ((length_eq_zero_iff _).1 e)
  simp only [userService.Update, hlen, if_false]
  cases (svc.repo.Persist (mergeFields u (svc.FetchOne u.Email w).1.1)
    (svc.FetchOne u.Email w).2.store).1 <;> rfl

theorem Delete_of_absent (svc : userService σ) (email : String) (w : World σ)
    (h : (svc.FetchOne email w).1.1.Email = "") :
    svc.Delete email w = ((User.zero, some errorUserDoesNotExists), (svc.FetchOne email w).2) := by
  have hlen : (svc.FetchOne email w).1.1.Email.length = 0 := (length_eq_zero_iff _).2 h
  simp only [userService.Delete, hlen, if_true]

theorem Delete_of_present (svc : userService σ) (email : String) (w : World σ)
    (h : (svc.FetchOne email w).1.1.Email ≠ "") :
    svc.Delete email w =
      (match (svc.repo.Delete email (svc.FetchOne email w).2.store).1 with
        | some _ => (User.zero, some errorUnableToDeleteUser)
        | none => ((svc.FetchOne email w).1.1, none),
       ⟨(svc.repo.Delete email (svc.FetchOne email w).2.store).2,
        (svc.FetchOne email w).2.calls ++ [RepoCall.Delete email]⟩) := by
  have hlen : ¬ (svc.FetchOne email w).1.1.Email.length = 0 :=
    fun e => h ((length_eq_zero_iff _).1 e)
  simp only [userService.Delete, hlen, if_false]
  cases (svc.repo.Delete email (svc.FetchOne email w).2.store).1 <;> rfl

/-- The probe of `Create` fails for an email the check rejects, its error is
dropped, and the record goes to `Persist`. -/
theorem Create_of_invalid_email (svc : userService σ) (u : User) (w : World σ)
    (h : svc.IsEmailValid u.Email = false) :
    svc.Create u w =
      (match (svc.repo.Persist u w.store).1 with
        | some _ => (User.zero, some errorUnableToCreateUser)
        | none => (u, none),
       ⟨(svc.repo.Persist u w.store).2, w.calls ++ [RepoCall.Persist u]⟩) := by
  have hp := FetchOne_of_invalid svc u.Email w h
  rw [Create_of_absent svc u w (by rw [hp]; rfl), hp]

/-! ## Create -/

/-- C3 as stated fails. Over the in-memory store, `Create` of a record whose
email the check rejects stores it, and a second `Create` with the same email
succeeds again, calls `Persist` and replaces the stored record. And when the
lookup of the backend fails, `Create` of the stored valid email `a@b.com`
calls `Persist` and replaces the stored record. -/
theorem Create_on_stored_key_can_overwrite :
    (memService.IsEmailValid "not-an-email" = false ∧
      (memService.Create ⟨"not-an-email", "A", "B"⟩ ⟨[], []⟩).2.store
        = [⟨"not-an-email", "A", "B"⟩] ∧
      memView [⟨"not-an-email", "A", "B"⟩] "not-an-email" = some ⟨"not-an-email", "A", "B"⟩ ∧
      memService.Create ⟨"not-an-email", "C", "D"⟩ ⟨[⟨"not-an-email", "A", "B"⟩], []⟩
        = ((⟨"not-an-email", "C", "D"⟩, none),
           ⟨[⟨"not-an-email", "C", "D"⟩], [RepoCall.Persist ⟨"not-an-email", "C", "D"⟩]⟩)) ∧
    (IsEmailValid "a@b.com" = true ∧
      memView [⟨"a@b.com", "A", "B"⟩] "a@b.com" = some ⟨"a@b.com", "A", "B"⟩ ∧
      userService.Create ⟨lookupDownRepo, IsEmailValid⟩ ⟨"a@b.com", "C", "D"⟩
          ⟨[⟨"a@b.com", "A", "B"⟩], []⟩
        = ((⟨"a@b.com", "C", "D"⟩, none),
           ⟨[⟨"a@b.com", "C", "D"⟩],
            [RepoCall.FetchOne "a@b.com", RepoCall.Persist ⟨"a@b.com", "C", "D"⟩]⟩)) := by
  decide

/-- C3, amended. For every `User` whose email the check accepts and for which
the lookup of the repository returns, without error, a record with non-empty
email, `Create` fails with "user already exists", returns the zero `User`,
makes no `Persist` call, and leaves the store as the lookup left it. -/
theorem Create_conflict_on_stored_record (svc : userService σ) (u e : User) (w : World σ)
    (s1 : σ) (hvalid : svc.IsEmailValid u.Email = true)
    (hfetch : svc.repo.FetchOne u.Email w.store = ((e, none), s1))
    (hne : e.Email ≠ "") :
    svc.Create u w
      = ((User.zero, some "user already exists"),
         ⟨s1, w.calls ++ [RepoCall.FetchOne u.Email]⟩) ∧
    persistCalls (svc.Create u w).2.calls = persistCalls w.calls := by
  have hp : svc.FetchOne u.Email w
      = ((e, none), ⟨s1, w.calls ++ [RepoCall.FetchOne u.Email]⟩) := by
    rw [FetchOne_of_valid svc u.Email w hvalid, hfetch]
  have hC := Create_of_present svc u w (by rw [hp]; exact hne)
  rw [hp] at hC
  rw [hC]
  refine ⟨rfl, ?_⟩
  simp [persistCalls_append, persistCalls]

/-- Witness of the amended C3: the stored record `a@b.com, A, B` stays as it
is under `Create` of `a@b.com, C, D`. -/
theorem Create_conflict_on_stored_record_witness :
    memService.IsEmailValid "a@b.com" = true ∧
    memService.repo.FetchOne "a@b.com" [⟨"a@b.com", "A", "B"⟩]
      = ((⟨"a@b.com", "A", "B"⟩, none), [⟨"a@b.com", "A", "B"⟩]) ∧
    (memService.Create ⟨"a@b.com", "C", "D"⟩ ⟨[⟨"a@b.com", "A", "B"⟩], []⟩
        = ((User.zero, some "user already exists"),
           ⟨[⟨"a@b.com", "A", "B"⟩], [] ++ [RepoCall.FetchOne "a@b.com"]⟩) ∧
      persistCalls (memService.Create ⟨"a@b.com", "C", "D"⟩
        ⟨[⟨"a@b.com", "A", "B"⟩], []⟩).2.calls = persistCalls []) :=
  ⟨by decide, by decide,
   Create_conflict_on_stored_record memService ⟨"a@b.com", "C", "D"⟩ ⟨"a@b.com", "A", "B"⟩
     ⟨[⟨"a@b.com", "A", "B"⟩], []⟩ [⟨"a@b.com", "A", "B"⟩] (by decide) (by decide) (by decide)⟩

/-- C4. Over a faithful key-value repository that holds no record for the
email of `u`, and with that email accepted by the check, `Create u` succeeds
and returns `u`, and `FetchOne` of that email afterwards returns `u` with a nil
error. -/
theorem Create_FetchOne_round_trip (svc : userService σ) (view : σ → String → Option User)
    (F : Faithful svc.repo view) (u : User) (w : World σ)
    (hvalid : svc.IsEmailValid u.Email = true)
    (habsent : view w.store u.Email = none) :
    (svc.Create u w).1 = (u, none) ∧
    (svc.FetchOne u.Email (svc.Create u w).2).1 = (u, none) := by
  have hp := FetchOne_faithful svc view F u.Email w hvalid
  rw [habsent] at hp
  have hC := Create_of_absent svc u w (by rw [hp]; rfl)
  rw [hp, F.persist_ok] at hC
  rw [hC, FetchOne_faithful svc view F u.Email _ hvalid, F.persist_view]
  simp

/-- Witness of C4: `a@b.com, A, B` over the empty in-memory store. -/
theorem Create_FetchOne_round_trip_witness :
    memService.IsEmailValid "a@b.com" = true ∧
    memView [] "a@b.com" = none ∧
    ((memService.Create ⟨"a@b.com", "A", "B"⟩ ⟨[], []⟩).1 = (⟨"a@b.com", "A", "B"⟩, none) ∧
      (memService.FetchOne "a@b.com" (memService.Create ⟨"a@b.com", "A", "B"⟩ ⟨[], []⟩).2).1
        = (⟨"a@b.com", "A", "B"⟩, none)) :=
  ⟨by decide, by decide,
   Create_FetchOne_round_trip memService memView memRepo_faithful ⟨"a@b.com", "A", "B"⟩
     ⟨[], []⟩ (by decide) (by decide)⟩

/-- C9 fails on the code. `Create` of a record whose email the check rejects
(`not-an-email`, and the empty string) calls `Persist` with it and succeeds;
the stored record is then out of reach of `FetchOne`. -/
theorem Create_persists_rejected_email :
    (IsEmailValid "not-an-email" = false ∧
      memService.Create ⟨"not-an-email", "X", "Y"⟩ ⟨[], []⟩
        = ((⟨"not-an-email", "X", "Y"⟩, none),
           ⟨[⟨"not-an-email", "X", "Y"⟩], [RepoCall.Persist ⟨"not-an-email", "X", "Y"⟩]⟩) ∧
      (memService.FetchOne "not-an-email" ⟨[⟨"not-an-email", "X", "Y"⟩], []⟩).1.1
        = User.zero) ∧
    (IsEmailValid "" = false ∧
      memService.Create ⟨"", "X", "Y"⟩ ⟨[], []⟩
        = ((⟨"", "X", "Y"⟩, none), ⟨[⟨"", "X", "Y"⟩], [RepoCall.Persist ⟨"", "X", "Y"⟩]⟩)) := by
  decide

/-! ## Delete -/

/-- C6. Over a faithful key-value repository that holds the record `r` under an
email the check accepts (the check rejecting the empty string), `Delete`
returns exactly `r` with a nil error, the key is gone from the store, and
`FetchOne` of that email afterwards returns the zero `User`, the sentinel of
absence. -/
theorem Delete_returns_snapshot (svc : userService σ) (view : σ → String → Option User)
    (F : Faithful svc.repo view) (email : String) (r : User) (w : World σ)
    (hvalid : svc.IsEmailValid email = true) (hempty : svc.IsEmailValid "" = false)
    (hstored : view w.store email = some r) :
    (svc.Delete email w).1 = (r, none) ∧
    view (svc.Delete email w).2.store email = none ∧
    (svc.FetchOne email (svc.Delete email w).2).1 = (User.zero, none) := by
  have hkey : r.Email = email := F.keyed _ _ _ hstored
  have hne : r.Email ≠ "" := by
    intro h0
    rw [hkey] at h0
    rw [h0, hempty] at hvalid
    exact Bool.false_ne_true hvalid
  have hp := FetchOne_faithful svc view F email w hvalid
  rw [hstored] at hp
  have hD := Delete_of_present svc email w (by rw [hp]; exact hne)
  rw [hp, F.delete_ok] at hD
  rw [hD, FetchOne_faithful svc view F email _ hvalid, F.delete_view]
  simp

/-- Witness of C6: deleting the stored record `a@b.com, A` returns it. -/
theorem Delete_returns_snapshot_witness :
    memService.IsEmailValid "a@b.com" = true ∧ memService.IsEmailValid "" = false ∧
    memView [⟨"a@b.com", "A", ""⟩] "a@b.com" = some ⟨"a@b.com", "A", ""⟩ ∧
    ((memService.Delete "a@b.com" ⟨[⟨"a@b.com", "A", ""⟩], []⟩).1
        = (⟨"a@b.com", "A", ""⟩, none) ∧
      memView (memService.Delete "a@b.com" ⟨[⟨"a@b.com", "A", ""⟩], []⟩).2.store "a@b.com"
        = none ∧
      (memService.FetchOne "a@b.com"
        (memService.Delete "a@b.com" ⟨[⟨"a@b.com", "A", ""⟩], []⟩).2).1 = (User.zero, none)) :=
  ⟨by decide, by decide, by decide,
   Delete_returns_snapshot memService memView memRepo_faithful "a@b.com" ⟨"a@b.com", "A", ""⟩
     ⟨[⟨"a@b.com", "A", ""⟩], []⟩ (by decide) (by decide) (by decide)⟩

/-! ## Update twice -/

theorem specMerge_idem (u e : User) : specMerge u (specMerge u e) = specMerge u e := by
  simp only [specMerge]
  split_ifs <;> rfl

theorem mergeFields_idem (u e : User) : mergeFields u (mergeFields u e) = mergeFields u e := by
  rw [mergeFields_eq_specMerge u e, mergeFields_eq_specMerge, specMerge_idem]

theorem mergeFields_Email (u e : User) : (mergeFields u e).Email = e.Email := by
  rw [mergeFields_eq_specMerge]; rfl

theorem Update_faithful_absent (svc : userService σ) (view : σ → String → Option User)
    (F : Faithful svc.repo view) (u : User) (w : World σ)
    (hvalid : svc.IsEmailValid u.Email = true)
    (h : ((view w.store u.Email).getD User.zero).Email = "") :
    svc.Update u w
      = ((User.zero, some errorUserDoesNotExists),
         ⟨w.store, w.calls ++ [RepoCall.FetchOne u.Email]⟩) := by
  have hp := FetchOne_faithful svc view F u.Email w hvalid
  rw [Update_of_absent svc u w (by rw [hp]; exact h), hp]

theorem Update_faithful_present (svc : userService σ) (view : σ → String → Option User)
    (F : Faithful svc.repo view) (u e0 : User) (w : World σ)
    (hvalid : svc.IsEmailValid u.Email = true)
    (hs : view w.store u.Email = some e0) (hne : e0.Email ≠ "") :
    svc.Update u w
      = ((mergeFields u e0, none),
         ⟨(svc.repo.Persist (mergeFields u e0) w.store).2,
          (w.calls ++ [RepoCall.FetchOne u.Email]) ++ [RepoCall.Persist (mergeFields u e0)]⟩) := by
  have hp := FetchOne_faithful svc view F u.Email w hvalid
  rw [hs] at hp
  have hU := Update_of_present svc u w (by rw [hp]; exact hne)
  rw [hp, F.persist_ok] at hU
  exact hU

/-- C10. The merge of `Update` is idempotent, and over a faithful key-value
repository a second `Update u` returns the same record and error as the first
and leaves the same stored map. -/
theorem Update_idempotent (svc : userService σ) (view : σ → String → Option User)
    (F : Faithful svc.repo view) (u e : User) (w : World σ) :
    mergeFields u (mergeFields u e) = mergeFields u e ∧
    (svc.Update u (svc.Update u w).2).1 = (svc.Update u w).1 ∧
    view (svc.Update u (svc.Update u w).2).2.store = view (svc.Update u w).2.store := by
  refine ⟨mergeFields_idem u e, ?_⟩
  cases hv : svc.IsEmailValid u.Email with
  | false =>
    have hU : ∀ w1 : World σ, svc.Update u w1 = ((User.zero, some errorUserDoesNotExists), w1) := by
      intro w1
      have hp := FetchOne_of_invalid svc u.Email w1 hv
      rw [Update_of_absent svc u w1 (by rw [hp]; rfl), hp]
    rw [hU w, hU w]
    exact ⟨rfl, rfl⟩
  | true =>
    by_cases habs : ((view w.store u.Email).getD User.zero).Email = ""
    · have h1 := Update_faithful_absent svc view F u w hv habs
      have h2 := Update_faithful_absent svc view F u
        ⟨w.store, w.calls ++ [RepoCall.FetchOne u.Email]⟩ hv habs
      rw [h1]
      dsimp only
      rw [h2]
      exact ⟨rfl, rfl⟩
    · cases hs : view w.store u.Email with
      | none => rw [hs] at habs; exact absurd rfl habs
      | some e0 =>
        rw [hs] at habs
        have hne : e0.Email ≠ "" := habs
        have hkey : e0.Email = u.Email := F.keyed _ _ _ hs
        have hmk : (mergeFields u e0).Email = u.Email := by rw [mergeFields_Email, hkey]
        have hs2 : view (svc.repo.Persist (mergeFields u e0) w.store).2 u.Email
            = some (mergeFields u e0) := by
          rw [F.persist_view, if_pos hmk.symm]
        have hne2 : (mergeFields u e0).Email ≠ "" := by rw [mergeFields_Email]; exact hne
        have h1 := Update_faithful_present svc view F u e0 w hv hs hne
        have h2 := Update_faithful_present svc view F u (mergeFields u e0)
          ⟨(svc.repo.Persist (mergeFields u e0) w.store).2,
           (w.calls ++ [RepoCall.FetchOne u.Email]) ++ [RepoCall.Persist (mergeFields u e0)]⟩
          hv hs2 hne2
        rw [mergeFields_idem] at h2
        rw [h1]
        dsimp only
        rw [h2]
        refine ⟨rfl, ?_⟩
        funext k
        rw [F.persist_view]
        by_cases hk : k = (mergeFields u e0).Email
        · rw [if_pos hk, hk, hmk, hs2]
        · rw [if_neg hk]

/-- Witness of C10 over the in-memory repository: a second `Update` with
`a@b.com, C, ""` of the stored `a@b.com, A, B` returns `a@b.com, C, B` again
and leaves the same list of records. -/
theorem Update_idempotent_witness :
    (memService.Update ⟨"a@b.com", "C", ""⟩ ⟨[⟨"a@b.com", "A", "B"⟩], []⟩).1
      = (⟨"a@b.com", "C", "B"⟩, none) ∧
    (memService.Update ⟨"a@b.com", "C", ""⟩
      (memService.Update ⟨"a@b.com", "C", ""⟩ ⟨[⟨"a@b.com", "A", "B"⟩], []⟩).2).2.store
      = (memService.Update ⟨"a@b.com", "C", ""⟩ ⟨[⟨"a@b.com", "A", "B"⟩], []⟩).2.store ∧
    (mergeFields ⟨"a@b.com", "C", ""⟩ (mergeFields ⟨"a@b.com", "C", ""⟩ ⟨"a@b.com", "A", "B"⟩)
        = mergeFields ⟨"a@b.com", "C", ""⟩ ⟨"a@b.com", "A", "B"⟩ ∧
      (memService.Update ⟨"a@b.com", "C", ""⟩
        (memService.Update ⟨"a@b.com", "C", ""⟩ ⟨[⟨"a@b.com", "A", "B"⟩], []⟩).2).1
        = (memService.Update ⟨"a@b.com", "C", ""⟩ ⟨[⟨"a@b.com", "A", "B"⟩], []⟩).1 ∧
      memView (memService.Update ⟨"a@b.com", "C", ""⟩
        (memService.Update ⟨"a@b.com", "C", ""⟩ ⟨[⟨"a@b.com", "A", "B"⟩], []⟩).2).2.store
        = memView (memService.Update ⟨"a@b.com", "C", ""⟩
            ⟨[⟨"a@b.com", "A", "B"⟩], []⟩).2.store) :=
  ⟨by decide, by decide,
   Update_idempotent memService memView memRepo_faithful ⟨"a@b.com", "C", ""⟩
     ⟨"a@b.com", "A", "B"⟩ ⟨[⟨"a@b.com", "A", "B"⟩], []⟩⟩

/-! ## Errors of the repository at the boundary of the service -/

theorem writeDownRepo_same (a b : String) :
    SameUpToErrorContent (writeDownRepo a) (writeDownRepo b) where
  fetchAll := fun _ => ⟨rfl, Iff.rfl, rfl⟩
  fetchOne := fun _ _ => ⟨rfl, Iff.rfl, rfl⟩
  persist := fun _ _ => ⟨by simp [writeDownRepo], rfl⟩
  delete := fun _ _ => ⟨Iff.rfl, rfl⟩

theorem FetchOne_same (r1 r2 : UserData σ) (S : SameUpToErrorContent r1 r2)
    (v : String → Bool) (email : String) (w : World σ) :
    userService.FetchOne ⟨r1, v⟩ email w = userService.FetchOne ⟨r2, v⟩ email w := by
  obtain ⟨hu, he, hs⟩ := S.fetchOne email w.store
  cases hv : v email with
  | false =>
    rw [FetchOne_of_invalid ⟨r1, v⟩ email w hv, FetchOne_of_invalid ⟨r2, v⟩ email w hv]
  | true =>
    rw [FetchOne_of_valid ⟨r1, v⟩ email w hv, FetchOne_of_valid ⟨r2, v⟩ email w hv]
    dsimp only
    rw [hs, hu]
    cases h1 : (r1.FetchOne email w.store).1.2 with
    | none => rw [he.1 h1]
    | some e1 =>
      cases h2 : (r2.FetchOne email w.store).1.2 with
      | none => rw [he.2 h2] at h1; cases h1
      | some e2 => rfl

/-- The part of C8 that holds on the code: between two repositories that differ
only in the content of their errors, `FetchAll`, `FetchOne`, `Create` and
`Delete` return the same result, error included, and `Update` returns the same
record and an error in the same runs. -/
theorem error_content_hidden_outside_Update (r1 r2 : UserData σ)
    (S : SameUpToErrorContent r1 r2) (v : String → Bool) (u : User) (email : String)
    (w : World σ) :
    userService.FetchAll ⟨r1, v⟩ w = userService.FetchAll ⟨r2, v⟩ w ∧
    userService.FetchOne ⟨r1, v⟩ email w = userService.FetchOne ⟨r2, v⟩ email w ∧
    userService.Create ⟨r1, v⟩ u w = userService.Create ⟨r2, v⟩ u w ∧
    userService.Delete ⟨r1, v⟩ email w = userService.Delete ⟨r2, v⟩ email w ∧
    (userService.Update ⟨r1, v⟩ u w).1.1 = (userService.Update ⟨r2, v⟩ u w).1.1 ∧
    ((userService.Update ⟨r1, v⟩ u w).1.2 = none ↔
      (userService.Update ⟨r2, v⟩ u w).1.2 = none) ∧
    (userService.Update ⟨r1, v⟩ u w).2 = (userService.Update ⟨r2, v⟩ u w).2 := by
  refine ⟨?_, FetchOne_same r1 r2 S v email w, ?_, ?_, ?_⟩
  · obtain ⟨hu, he, hs⟩ := S.fetchAll w.store
    simp only [userService.FetchAll]
    rw [hs, hu]
    cases h1 : (r1.FetchAll w.store).1.2 with
    | none => rw [he.1 h1]
    | some e1 =>
      cases h2 : (r2.FetchAll w.store).1.2 with
      | none => rw [he.2 h2] at h1; cases h1
      | some e2 => rfl
  · have hF := FetchOne_same r1 r2 S v u.Email w
    by_cases hp : (userService.FetchOne ⟨r1, v⟩ u.Email w).1.1.Email = ""
    · rw [Create_of_absent ⟨r1, v⟩ u w hp, Create_of_absent ⟨r2, v⟩ u w (by rw [← hF]; exact hp)]
      dsimp only
      rw [← hF]
      obtain ⟨he, hs⟩ := S.persist u (userService.FetchOne ⟨r1, v⟩ u.Email w).2.store
      rw [hs]
      cases h1 : (r1.Persist u (userService.FetchOne ⟨r1, v⟩ u.Email w).2.store).1 with
      | none => rw [he.1 h1]
      | some e1 =>
        cases h2 : (r2.Persist u (userService.FetchOne ⟨r1, v⟩ u.Email w).2.store).1 with
        | none => rw [he.2 h2] at h1; cases h1
        | some e2 => rfl
    · rw [Create_of_present ⟨r1, v⟩ u w hp,
        Create_of_present ⟨r2, v⟩ u w (by rw [← hF]; exact hp), hF]
  · have hF := FetchOne_same r1 r2 S v email w
    by_cases hp : (userService.FetchOne ⟨r1, v⟩ email w).1.1.Email = ""
    · rw [Delete_of_absent ⟨r1, v⟩ email w hp,
        Delete_of_absent ⟨r2, v⟩ email w (by rw [← hF]; exact hp), hF]
    · rw [Delete_of_present ⟨r1, v⟩ email w hp,
        Delete_of_present ⟨r2, v⟩ email w (by rw [← hF]; exact hp)]
      dsimp only
      rw [← hF]
      obtain ⟨he, hs⟩ := S.delete email (userService.FetchOne ⟨r1, v⟩ email w).2.store
      rw [hs]
      cases h1 : (r1.Delete email (userService.FetchOne ⟨r1, v⟩ email w).2.store).1 with
      | none => rw [he.1 h1]
      | some e1 =>
        cases h2 : (r2.Delete email (userService.FetchOne ⟨r1, v⟩ email w).2.store).1 with
        | none => rw [he.2 h2] at h1; cases h1
        | some e2 => rfl
  · have hF := FetchOne_same r1 r2 S v u.Email w
    by_cases hp : (userService.FetchOne ⟨r1, v⟩ u.Email w).1.1.Email = ""
    · rw [Update_of_absent ⟨r1, v⟩ u w hp,
        Update_of_absent ⟨r2, v⟩ u w (by rw [← hF]; exact hp), hF]
      exact ⟨rfl, Iff.rfl, rfl⟩
    · rw [Update_of_present ⟨r1, v⟩ u w hp,
        Update_of_present ⟨r2, v⟩ u w (by rw [← hF]; exact hp)]
      dsimp only
      rw [← hF]
      obtain ⟨he, hs⟩ := S.persist (mergeFields u (userService.FetchOne ⟨r1, v⟩ u.Email w).1.1)
        (userService.FetchOne ⟨r1, v⟩ u.Email w).2.store
      rw [hs]
      cases h1 : (r1.Persist (mergeFields u (userService.FetchOne ⟨r1, v⟩ u.Email w).1.1)
          (userService.FetchOne ⟨r1, v⟩ u.Email w).2.store).1 with
      | none => rw [he.1 h1]; exact ⟨rfl, Iff.rfl, rfl⟩
      | some e1 =>
        cases h2 : (r2.Persist (mergeFields u (userService.FetchOne ⟨r1, v⟩ u.Email w).1.1)
            (userService.FetchOne ⟨r1, v⟩ u.Email w).2.store).1 with
        | none => rw [he.2 h2] at h1; cases h1
        | some e2 => exact ⟨rfl, by simp, rfl⟩

/-- C8 fails on the code for `Update`. The two repositories differ only in the
message of the error of `Persist` (the two messages of `userRepo.Persist`), and
`Update` of the stored `a@b.com` returns two different errors: the message of
the repository itself. -/
theorem Update_returns_repository_error :
    SameUpToErrorContent (writeDownRepo errorCouldNotMarshalItem)
      (writeDownRepo errorCouldNotDynamoPutItem) ∧
    (userService.Update ⟨writeDownRepo errorCouldNotMarshalItem, IsEmailValid⟩
      ⟨"a@b.com", "C", ""⟩ ⟨[⟨"a@b.com", "A", "B"⟩], []⟩).1
      = (User.zero, some "could not marshal item") ∧
    (userService.Update ⟨writeDownRepo errorCouldNotDynamoPutItem, IsEmailValid⟩
      ⟨"a@b.com", "C", ""⟩ ⟨[⟨"a@b.com", "A", "B"⟩], []⟩).1
      = (User.zero, some "could not dynamo put item error") ∧
    (userService.Update ⟨writeDownRepo errorCouldNotMarshalItem, IsEmailValid⟩
      ⟨"a@b.com", "C", ""⟩ ⟨[⟨"a@b.com", "A", "B"⟩], []⟩).1.2
      ≠ (userService.Update ⟨writeDownRepo errorCouldNotDynamoPutItem, IsEmailValid⟩
          ⟨"a@b.com", "C", ""⟩ ⟨[⟨"a@b.com", "A", "B"⟩], []⟩).1.2 ∧
    (userService.Create ⟨writeDownRepo errorCouldNotMarshalItem, IsEmailValid⟩
      ⟨"c@d.org", "C", ""⟩ ⟨[⟨"a@b.com", "A", "B"⟩], []⟩).1.2
      = (userService.Create ⟨writeDownRepo errorCouldNotDynamoPutItem, IsEmailValid⟩
          ⟨"c@d.org", "C", ""⟩ ⟨[⟨"a@b.com", "A", "B"⟩], []⟩).1.2 :=
  ⟨writeDownRepo_same _ _, by decide, by decide, by decide, by decide⟩

end user
